import Mathlib

/-! Shallow embedding of the panel-formatting pipeline of the WDI Panel Data
Builder (`src/econ_dashboard.py`).  Cells of the uploaded table are modelled
as a tagged union (string / finite number / missing), numeric values as
rationals.  Each definition is translated from the corresponding source
construct; line references are to `src/econ_dashboard.py`. -/

/-- A cell of the raw table: a string, a (finite) number, or missing (NaN). -/
inductive Cell where
  | str (s : String)
  | num (q : ℚ)
  | missing
deriving DecidableEq, Repr

/-- Python `str.strip`: drop trailing then leading whitespace. -/
def pyStrip (l : List Char) : List Char :=
  ((l.reverse.dropWhile Char.isWhitespace).reverse).dropWhile Char.isWhitespace

/-- The needle occurs as a contiguous substring of the haystack (Python `in`). -/
def containsSeq (needle : List Char) : List Char → Bool
  | [] => needle.isPrefixOf []
  | c :: rest => needle.isPrefixOf (c :: rest) || containsSeq needle rest

/-- The first whitespace-delimited token of a string (Python `s.split()[0]`),
`[]` when there is none. -/
def firstTok (l : List Char) : List Char :=
  (l.dropWhile Char.isWhitespace).takeWhile (fun c => !c.isWhitespace)

/-- Numeric value of a digit list. -/
def digitsVal (l : List Char) : Nat :=
  l.foldl (fun a c => a * 10 + (c.toNat - 48)) 0

/-- Continuation of a digit run possibly containing single interior
underscores, as accepted by Python `int` after its first digit. -/
def intTail : List Char → Bool
  | [] => true
  | ['_'] => false
  | '_' :: c :: rest => c.isDigit && intTail rest
  | c :: rest => c.isDigit && intTail rest

/-- Python `int` on an unsigned whitespace-free token: digits with optional
single interior underscores. -/
def pyNat? : List Char → Option Nat
  | [] => none
  | c :: rest =>
    if c.isDigit && intTail rest then
      some (digitsVal ((c :: rest).filter (fun d => d != '_')))
    else none

/-- Python `int` on a whitespace-free token: optional sign, then digits. -/
def pyInt? : List Char → Option Int
  | '+' :: rest => (pyNat? rest).map Int.ofNat
  | '-' :: rest => (pyNat? rest).map (fun n => -(n : Int))
  | l => (pyNat? l).map Int.ofNat

/-- All characters are digits and the list is nonempty. -/
def allDigits1 (l : List Char) : Bool := !l.isEmpty && l.all Char.isDigit

/-- Signed digit run of a float exponent. -/
def expDigits : List Char → Option Int
  | '+' :: rest => if allDigits1 rest then some (Int.ofNat (digitsVal rest)) else none
  | '-' :: rest => if allDigits1 rest then some (-(digitsVal rest : Int)) else none
  | l => if allDigits1 l then some (Int.ofNat (digitsVal l)) else none

/-- Optional exponent suffix of a float literal; `some 0` on empty input. -/
def expPart : List Char → Option Int
  | [] => some 0
  | 'e' :: rest => expDigits rest
  | 'E' :: rest => expDigits rest
  | _ => none

/-- Unsigned float body: digits, optional dot and fraction digits, optional
exponent, with at least one mantissa digit.  (IEEE specials `inf`/`nan` and
digit underscores are not modelled; no claim exercises them.) -/
def pyFloatU (l : List Char) : Option ℚ :=
  let ip := l.takeWhile Char.isDigit
  let r1 := l.dropWhile Char.isDigit
  match r1 with
  | '.' :: r2 =>
    let fp := r2.takeWhile Char.isDigit
    let r3 := r2.dropWhile Char.isDigit
    if ip.isEmpty && fp.isEmpty then none
    else (expPart r3).map (fun e =>
      ((digitsVal ip : ℚ) + (digitsVal fp : ℚ) / (10 : ℚ) ^ fp.length) * (10 : ℚ) ^ e)
  | r => if ip.isEmpty then none else
      (expPart r).map (fun e => (digitsVal ip : ℚ) * (10 : ℚ) ^ e)

/-- The numeric parse performed by `pd.to_numeric` with coercion on a string
cell, modelled after Python float parsing: strip, optional sign, float body. -/
def pyFloat? (l : List Char) : Option ℚ :=
  match pyStrip l with
  | '+' :: rest => pyFloatU rest
  | '-' :: rest => (pyFloatU rest).map Neg.neg
  | rest => pyFloatU rest

/-- Year-column detection (lines 76-83): the stripped name is nonempty and
its first character is a digit, or it contains "19" or "20" anywhere. -/
def isYearCol (col : String) : Bool :=
  match pyStrip col.data with
  | [] => false
  | c :: rest =>
    c.isDigit || containsSeq ['1', '9'] (c :: rest) || containsSeq ['2', '0'] (c :: rest)

/-- The list starts with a four-digit token `19dd` or `20dd`. -/
def yearAtStart : List Char → Bool
  | c1 :: c2 :: c3 :: c4 :: _ =>
    ((c1 == '1' && c2 == '9') || (c1 == '2' && c2 == '0')) && c3.isDigit && c4.isDigit
  | _ => false

/-- Modelled from the spec's words for claim C5, for comparison with
`isYearCol`: the name begins with a 4-digit token matching `(19|20)dd`, or
the name's first whitespace-delimited token is purely numeric. -/
def specYearCol (col : String) : Bool :=
  let s := pyStrip col.data
  yearAtStart s || (let t := firstTok s; !t.isEmpty && t.all Char.isDigit)

/-- Value of a `(19|20)dd` match at the head of the list. -/
def yearAt : List Char → Option Int
  | c1 :: c2 :: c3 :: c4 :: _ =>
    if ((c1 == '1' && c2 == '9') || (c1 == '2' && c2 == '0')) && c3.isDigit && c4.isDigit then
      some (((c1.toNat - 48) * 1000 + (c2.toNat - 48) * 100 +
        (c3.toNat - 48) * 10 + (c4.toNat - 48) : Nat) : Int)
    else none
  | _ => none

/-- `re.search` for `(19|20)dd` (lines 167-169): first match scanning from
the left. -/
def searchYear : List Char → Option Int
  | [] => none
  | c :: rest =>
    match yearAt (c :: rest) with
    | some y => some y
    | none => searchYear rest

/-- Year parsed from a selected column name (lines 162-175): strip, regex
search, else Python `int` of the first whitespace token; `none` means the
column is skipped with a warning. -/
def parseYearCol (col : String) : Option Int :=
  let s := pyStrip col.data
  match searchYear s with
  | some y => some y
  | none =>
    match firstTok s with
    | [] => none
    | t => pyInt? t

/-- A row of the uploaded wide table restricted to the chosen columns:
country cell, variable cell, country-code cell (used only when a code column
is selected), and the cells of the selected year columns, positionally
aligned with the selected column-name list. -/
structure WideRow where
  country : Cell
  var : Cell
  code : Cell
  cells : List Cell
deriving DecidableEq, Repr

/-- A row of `df_long` right after the melt. -/
structure LongRow where
  country : Cell
  var : Cell
  code : Cell
  year : Int
  value : Cell
deriving DecidableEq, Repr

/-- A row of `df_long` after value cleaning dropped the missing values. -/
structure TidyRow where
  country : Cell
  var : Cell
  code : Cell
  year : Int
  value : ℚ
deriving DecidableEq, Repr

/-- `year_map` (lines 160-175): selected columns (by position) with their
parsed year; unparseable columns are dropped. -/
def year_map (ys : List String) : List (Nat × Int) :=
  ys.enum.filterMap (fun p => (parseYearCol p.2).map (fun y => (p.1, y)))

/-- `df.melt` over the renamed year columns (lines 181-196): column-major
order, one long row per (selected parsed column, wide row). -/
def meltRows (useCode : Bool) (wt : List WideRow) (ys : List String) : List LongRow :=
  (year_map ys).flatMap (fun p =>
    wt.map (fun r =>
      ⟨r.country, r.var, if useCode then r.code else Cell.missing, p.2,
        r.cells.getD p.1 Cell.missing⟩))

/-- Value cleaning (lines 198-204): replace the ".." token and the empty
string by NaN, then numeric coercion; failures become NaN (`none`). -/
def cleanValue : Cell → Option ℚ
  | Cell.missing => none
  | Cell.num q => some q
  | Cell.str s => if s = ".." ∨ s = "" then none else pyFloat? s.data

/-- A cell containing a parseable number, and that number. -/
def cellNum : Cell → Option ℚ
  | Cell.missing => none
  | Cell.num q => some q
  | Cell.str s => pyFloat? s.data

/-- `df_long` after dropping rows with missing `value` (lines 191-210). -/
def tidyRows (useCode : Bool) (wt : List WideRow) (ys : List String) : List TidyRow :=
  (meltRows useCode wt ys).filterMap (fun l =>
    (cleanValue l.value).map (fun q => ⟨l.country, l.var, l.code, l.year, q⟩))

/-- pandas `astype(str)`: strings unchanged, NaN becomes "nan".  (The repr of
a numeric cell only approximates Python float repr; no claim exercises it.) -/
def strCell : Cell → String
  | Cell.str s => s
  | Cell.num q => toString q
  | Cell.missing => "nan"

/-- Country/variable allow-list filtering (lines 146-154): an empty selection
means no filtering. -/
def df_work (wt : List WideRow) (selC selV : List String) : List WideRow :=
  let w1 := if selC.isEmpty then wt
    else wt.filter (fun r => decide (strCell r.country ∈ selC))
  if selV.isEmpty then w1 else w1.filter (fun r => decide (strCell r.var ∈ selV))

/-- Lexicographic comparison of character lists by code point, the order
Python `sorted` uses on strings. -/
def charListLE : List Char → List Char → Bool
  | [], _ => true
  | _ :: _, [] => false
  | a :: as, b :: bs => if a < b then true else if b < a then false else charListLE as bs

/-- Lexicographic order on strings. -/
def strle (a b : String) : Bool := charListLE a.data b.data

/-- `strle` as a relation, for sorting. -/
def strleP (a b : String) : Prop := strle a b = true

instance : DecidableRel strleP := fun a b => inferInstanceAs (Decidable (strle a b = true))

/-- `sorted(df_long[country].astype(str).unique())` (line 236). -/
def unique_countries (L : List TidyRow) : List String :=
  List.insertionSort strleP ((L.map (fun t => strCell t.country)).dedup)

/-- `country_id_map` (line 237): 1-based position in the sorted country
list. -/
def country_id_map (cs : List String) (c : String) : Nat :=
  cs.indexOf c + 1

/-- Order used by `pivot_table` to sort the variable column labels.  pandas
raises on mixed-type label sets; the cross-type cases below are arbitrary and
are never exercised on uniform-type labels. -/
def cellLE : Cell → Cell → Bool
  | Cell.missing, _ => true
  | _, Cell.missing => false
  | Cell.num p, Cell.num q => decide (p ≤ q)
  | Cell.num _, Cell.str _ => true
  | Cell.str _, Cell.num _ => false
  | Cell.str s, Cell.str t => strle s t

/-- `cellLE` as a relation, for sorting. -/
def cellLe (a b : Cell) : Prop := cellLE a b = true

instance : DecidableRel cellLe := fun a b => inferInstanceAs (Decidable (cellLE a b = true))

/-- A group key of `pivot_table` (lines 240-250): the index columns
`country, country_id, [country_code,] year`. -/
structure PKey where
  country : Cell
  country_id : Nat
  code : Option Cell
  year : Int
deriving DecidableEq, Repr

/-- Rows with a missing (NaN) group key are silently dropped by the pandas
groupby underlying `pivot_table`. -/
def validRow (useCode : Bool) (t : TidyRow) : Bool :=
  !decide (t.country = Cell.missing) && !decide (t.var = Cell.missing) &&
    (!useCode || !decide (t.code = Cell.missing))

/-- The pivot index key of a tidy row; `country_id` is looked up through the
string rendering of the country cell (line 238). -/
def keyOf (useCode : Bool) (cmap : String → Nat) (t : TidyRow) : PKey :=
  ⟨t.country, cmap (strCell t.country), if useCode then some t.code else none, t.year⟩

/-- One output row after `reset_index` and the `astype(str)` loop
(lines 250-261): identifier columns rendered as strings, one optional value
per variable column. -/
structure PanelRow where
  country : String
  country_id : Nat
  country_code : Option String
  year : Int
  vals : List (Option ℚ)
deriving DecidableEq, Repr

/-- The produced panel: the sorted variable column labels and the rows. -/
structure Panel where
  vars : List Cell
  rows : List PanelRow
deriving DecidableEq, Repr

/-- `aggfunc = first`: the first (in long-row order) surviving value of the
group for the given variable. -/
def panelCell (useCode : Bool) (cmap : String → Nat) (L : List TidyRow)
    (k : PKey) (v : Cell) : Option ℚ :=
  ((L.filter (fun t => validRow useCode t)).find?
      (fun t => decide (keyOf useCode cmap t = k) && decide (t.var = v))).map
    (fun t => t.value)

/-- The `pivot_table` call with `aggfunc = first` over the index columns,
`reset_index`, and the string-conversion loop (lines 240-261). -/
def pivotPanel (useCode : Bool) (L : List TidyRow) : Panel :=
  let cmap := country_id_map (unique_countries L)
  let valid := L.filter (fun t => validRow useCode t)
  let vars := List.insertionSort cellLe (valid.map (fun t => t.var)).dedup
  let keys := (valid.map (fun t => keyOf useCode cmap t)).dedup
  { vars := vars
    rows := keys.map (fun k =>
      ⟨strCell k.country, k.country_id, k.code.map strCell, k.year,
        vars.map (fun v => panelCell useCode cmap L k v)⟩) }

/-- The distinct error outcomes of the Format-Data handler (lines 139-272). -/
inductive FormatError where
  | noYearSelected
  | emptyAfterFilter
  | noYearParsed
  | noValidData
deriving DecidableEq, Repr

/-- The Format-Data button handler (lines 139-267): filter, parse the year
columns, melt, clean, pivot; each failure branch shows a distinct error and
stores no panel. -/
def formatData (useCode : Bool) (wt : List WideRow) (ys selC selV : List String) :
    Except FormatError Panel :=
  if ys.isEmpty then Except.error FormatError.noYearSelected
  else
    let dfw := df_work wt selC selV
    if dfw.isEmpty then Except.error FormatError.emptyAfterFilter
    else if (year_map ys).isEmpty then Except.error FormatError.noYearParsed
    else
      let L := tidyRows useCode dfw ys
      if L.isEmpty then Except.error FormatError.noValidData
      else Except.ok (pivotPanel useCode L)

/-- The stored panel of a successful run. -/
def okPart : Except FormatError Panel → Option Panel
  | Except.ok p => some p
  | Except.error _ => none

instance : DecidableEq (Except FormatError Panel) := fun a b =>
  match a, b with
  | Except.ok x, Except.ok y => decidable_of_iff (x = y) (by simp)
  | Except.error x, Except.error y => decidable_of_iff (x = y) (by simp)
  | Except.ok _, Except.error _ => isFalse (by simp)
  | Except.error _, Except.ok _ => isFalse (by simp)

/-- Column header of the produced panel, in order (lines 240-253): the index
columns back from `reset_index`, then one stripped label per variable. -/
def panelColumnNames (useCode : Bool) (p : Panel) : List String :=
  ["country", "country_id"] ++ (if useCode then ["country_code"] else []) ++ ["year"] ++
    p.vars.map (fun v => String.mk (pyStrip (strCell v).data))

/-! Concrete example inputs and their expected outputs, used by the witness
and counterexample theorems below. -/

/-- One country, one variable, one parseable value and one ".." sentinel. -/
def wtC1ex : List WideRow :=
  [⟨Cell.str "A", Cell.str "v", Cell.missing, [Cell.str "1.5", Cell.str ".."]⟩]

/-- The melt row of `wtC1ex` carrying the parseable value. -/
def lC1ex : LongRow := ⟨Cell.str "A", Cell.str "v", Cell.missing, 2000, Cell.str "1.5"⟩

/-- One country appearing with two different country codes in the same year. -/
def wtC2x : List WideRow :=
  [⟨Cell.str "A", Cell.str "v", Cell.str "X1", [Cell.num 1]⟩,
   ⟨Cell.str "A", Cell.str "v", Cell.str "X2", [Cell.num 2]⟩]

/-- The panel the pipeline produces from `wtC2x` with a code column. -/
def pC2x : Panel :=
  ⟨[Cell.str "v"],
   [⟨"A", 1, some "X1", 2000, [some 1]⟩, ⟨"A", 1, some "X2", 2000, [some 2]⟩]⟩

/-- Two duplicate (country, year, variable) observations with values 1, 2. -/
def wtC2w : List WideRow :=
  [⟨Cell.str "A", Cell.str "v", Cell.missing, [Cell.num 1]⟩,
   ⟨Cell.str "A", Cell.str "v", Cell.missing, [Cell.num 2]⟩]

/-- The surviving long rows of the `wtC2w` run. -/
def LC2w : List TidyRow := tidyRows false (df_work wtC2w [] []) ["2000"]

/-- The panel of the `wtC2w` run: the duplicate resolved to the first value. -/
def pC2w : Panel := ⟨[Cell.str "v"], [⟨"A", 1, none, 2000, [some 1]⟩]⟩

/-- Countries arriving in anti-alphabetical order. -/
def wtC3ex : List WideRow :=
  [⟨Cell.str "b", Cell.str "v", Cell.missing, [Cell.num 1]⟩,
   ⟨Cell.str "a", Cell.str "v", Cell.missing, [Cell.num 2]⟩]

/-- The panel of the `wtC3ex` run. -/
def pC3ex : Panel :=
  ⟨[Cell.str "v"],
   [⟨"b", 2, none, 2000, [some 1]⟩, ⟨"a", 1, none, 2000, [some 2]⟩]⟩

/-- Two variables, the second with all its cells equal to the ".." sentinel. -/
def wtC4x : List WideRow :=
  [⟨Cell.str "A", Cell.str "vA", Cell.missing, [Cell.num 1]⟩,
   ⟨Cell.str "A", Cell.str "vB", Cell.missing, [Cell.str ".."]⟩]

/-- The panel of the `wtC4x` run: variable vB vanished. -/
def pC4x : Panel := ⟨[Cell.str "vA"], [⟨"A", 1, none, 2000, [some 1]⟩]⟩

/-- A single-row table for the year-column-named-"5" run. -/
def wtC6x : List WideRow := [⟨Cell.str "A", Cell.str "v", Cell.missing, [Cell.num 1]⟩]

/-- The panel of the `wtC6x` run with the selected column named "5". -/
def pC6x : Panel := ⟨[Cell.str "v"], [⟨"A", 1, none, 5, [some 1]⟩]⟩

/-- A table whose only value cell is the ".." sentinel. -/
def wtC7x : List WideRow := [⟨Cell.str "A", Cell.str "v", Cell.missing, [Cell.str ".."]⟩]

/-- Variables first encountered in the order "B", "Avar". -/
def wtC8x : List WideRow :=
  [⟨Cell.str "A", Cell.str "B", Cell.missing, [Cell.num 1]⟩,
   ⟨Cell.str "A", Cell.str "Avar", Cell.missing, [Cell.num 2]⟩]

/-- The panel of the `wtC8x` run: variable columns sorted, not
first-encountered. -/
def pC8x : Panel := ⟨[Cell.str "Avar", Cell.str "B"], [⟨"A", 1, none, 2000, [some 2, some 1]⟩]⟩

/-- Country "A" has a missing country code, country "B" has code "BB". -/
def wtC10x : List WideRow :=
  [⟨Cell.str "A", Cell.str "v", Cell.missing, [Cell.num 1]⟩,
   ⟨Cell.str "B", Cell.str "v", Cell.str "BB", [Cell.num 2]⟩]

/-- The panel of the `wtC10x` run with a code column: the row of country "A"
was dropped entirely; no "nan" code appears. -/
def pC10x : Panel := ⟨[Cell.str "v"], [⟨"B", 2, some "BB", 2000, [some 2]⟩]⟩

/-- Modelled from the spec: the Denton-type annual-to-monthly disaggregator
of spec §4.5 is not present under `src/` (only this single UI file is); the
spec defines its contract as minimizing the sum of squared first differences
subject to the block aggregation constraint.  Sum of the 12 monthly values of
year block `j`. -/
def annualSum (x : Nat → ℚ) (j : Nat) : ℚ := ∑ i ∈ Finset.range 12, x (12 * j + i)

/-- Modelled from the spec: the roughness objective, the sum of squared first
differences of the first `T` monthly values. -/
def roughness (x : Nat → ℚ) (T : Nat) : ℚ :=
  ∑ t ∈ Finset.range (T - 1), (x (t + 1) - x t) ^ 2

/-- Modelled from the spec: the aggregation constraint `A x = low` of the
Denton-type disaggregator (12 ones per year block). -/
def dentonFeasible (low : List ℚ) (x : Nat → ℚ) : Prop :=
  ∀ j < low.length, annualSum x j = low.getD j 0

/-- Modelled from the spec: an output of the Denton-type disaggregator for an
accepted annual input (at least 2 observations): a feasible monthly vector of
minimal roughness. -/
def DentonOutput (low : List ℚ) (x : Nat → ℚ) : Prop :=
  2 ≤ low.length ∧ dentonFeasible low x ∧
    ∀ z : Nat → ℚ, dentonFeasible low z →
      roughness x (12 * low.length) ≤ roughness z (12 * low.length)

/-! Helper lemmas. -/

theorem dropWhile_idem (p : α → Bool) (l : List α) :
    (l.dropWhile p).dropWhile p = l.dropWhile p := by
  induction l with
  | nil => rfl
  | cons x xs ih =>
    by_cases h : p x = true
    · simp [List.dropWhile_cons, h, ih]
    · simp [List.dropWhile_cons, h]

theorem charListLE_total (a b : List Char) : charListLE a b = true ∨ charListLE b a = true := by
  induction a generalizing b with
  | nil => left; rfl
  | cons x xs ih =>
    cases b with
    | nil => right; rfl
    | cons y ys =>
      by_cases h1 : x < y
      · left; simp [charListLE, h1]
      · by_cases h2 : y < x
        · right; simp [charListLE, h2]
        · have hxy : x = y := le_antisymm (not_lt.mp h2) (not_lt.mp h1)
          subst hxy
          rcases ih ys with h | h
          · left; simp [charListLE, lt_irrefl, h]
          · right; simp [charListLE, lt_irrefl, h]

theorem charListLE_trans {a b c : List Char} (hab : charListLE a b = true)
    (hbc : charListLE b c = true) : charListLE a c = true := by
  induction a generalizing b c with
  | nil => rfl
  | cons x xs ih =>
    cases b with
    | nil => simp [charListLE] at hab
    | cons y ys =>
      cases c with
      | nil => simp [charListLE] at hbc
      | cons z zs =>
        by_cases hxy : x < y
        · by_cases hyz : y < z
          · have hxz : x < z := lt_trans hxy hyz
            simp [charListLE, hxz]
          · by_cases hzy : z < y
            · simp [charListLE, hzy, asymm hzy] at hbc
            · have h : y = z := le_antisymm (not_lt.mp hzy) (not_lt.mp hyz)
              subst h
              simp [charListLE, hxy]
        · by_cases hyx : y < x
          · simp [charListLE, hyx, asymm hyx] at hab
          · have h : x = y := le_antisymm (not_lt.mp hyx) (not_lt.mp hxy)
            subst h
            simp only [charListLE, lt_irrefl, if_neg (lt_irrefl x), if_false] at hab
            by_cases hxz : x < z
            · simp [charListLE, hxz]
            · by_cases hzx : z < x
              · simp [charListLE, hzx, asymm hzx] at hbc
              · have h : x = z := le_antisymm (not_lt.mp hzx) (not_lt.mp hxz)
                subst h
                simp only [charListLE, lt_irrefl, if_neg (lt_irrefl x), if_false] at hbc ⊢
                exact ih hab hbc

theorem charListLE_antisymm {a b : List Char} (hab : charListLE a b = true)
    (hba : charListLE b a = true) : a = b := by
  induction a generalizing b with
  | nil =>
    cases b with
    | nil => rfl
    | cons y ys => simp [charListLE] at hba
  | cons x xs ih =>
    cases b with
    | nil => simp [charListLE] at hab
    | cons y ys =>
      by_cases hxy : x < y
      · simp [charListLE, hxy, asymm hxy] at hba
      · by_cases hyx : y < x
        · simp [charListLE, hyx, asymm hyx] at hab
        · have h : x = y := le_antisymm (not_lt.mp hyx) (not_lt.mp hxy)
          subst h
          simp only [charListLE, lt_irrefl, if_neg (lt_irrefl x), if_false] at hab hba
          rw [ih hab hba]

theorem strle_total (a b : String) : strle a b = true ∨ strle b a = true :=
  charListLE_total a.data b.data

theorem strle_trans {a b c : String} (hab : strle a b = true) (hbc : strle b c = true) :
    strle a c = true :=
  charListLE_trans hab hbc

theorem strle_antisymm {a b : String} (hab : strle a b = true) (hba : strle b a = true) :
    a = b :=
  String.ext (charListLE_antisymm hab hba)

instance : IsTotal String strleP := ⟨fun a b => strle_total a b⟩

instance : IsTrans String strleP := ⟨fun _ _ _ hab hbc => strle_trans hab hbc⟩

theorem cellLE_total (a b : Cell) : cellLE a b = true ∨ cellLE b a = true := by
  cases a <;> cases b <;> simp [cellLE]
  · exact strle_total _ _
  · exact le_total _ _

theorem cellLE_trans {a b c : Cell} (hab : cellLE a b = true) (hbc : cellLE b c = true) :
    cellLE a c = true := by
  cases a <;> cases b <;> cases c <;> simp_all [cellLE]
  · exact strle_trans hab hbc
  · exact le_trans hab hbc

instance : IsTotal Cell cellLe := ⟨fun a b => cellLE_total a b⟩

instance : IsTrans Cell cellLe := ⟨fun _ _ _ hab hbc => cellLE_trans hab hbc⟩

theorem find?_eq_get {α : Type} (p : α → Bool) (l : List α) (n : Nat) (hn : n < l.length)
    (hp : p (l.get ⟨n, hn⟩) = true)
    (hfirst : ∀ m (hm : m < l.length), m < n → p (l.get ⟨m, hm⟩) = false) :
    l.find? p = some (l.get ⟨n, hn⟩) := by
  induction l generalizing n with
  | nil => simp at hn
  | cons x xs ih =>
    cases n with
    | zero => exact List.find?_cons_of_pos xs hp
    | succ n =>
      have hx : p x = false := hfirst 0 (by omega) (by omega)
      rw [List.find?_cons_of_neg xs (by simp [hx])]
      exact ih n (by simpa using hn) hp
        (fun m hm hlt => hfirst (m + 1) (by simpa using Nat.succ_lt_succ hm) (by omega))

theorem mem_meltRows {useCode : Bool} {wt : List WideRow} {ys : List String} {l : LongRow} :
    l ∈ meltRows useCode wt ys ↔ ∃ pr ∈ year_map ys, ∃ r ∈ wt,
      l = ⟨r.country, r.var, if useCode then r.code else Cell.missing, pr.2,
        r.cells.getD pr.1 Cell.missing⟩ := by
  simp only [meltRows, List.mem_flatMap, List.mem_map]
  constructor
  · rintro ⟨pr, hpr, r, hr, rfl⟩
    exact ⟨pr, hpr, r, hr, rfl⟩
  · rintro ⟨pr, hpr, r, hr, rfl⟩
    exact ⟨pr, hpr, r, hr, rfl⟩

theorem mem_tidyRows {useCode : Bool} {wt : List WideRow} {ys : List String} {t : TidyRow} :
    t ∈ tidyRows useCode wt ys ↔ ∃ l ∈ meltRows useCode wt ys,
      cleanValue l.value = some t.value ∧ t.country = l.country ∧ t.var = l.var ∧
        t.code = l.code ∧ t.year = l.year := by
  simp only [tidyRows, List.mem_filterMap, Option.map_eq_some']
  constructor
  · rintro ⟨l, hl, q, hq, rfl⟩
    exact ⟨l, hl, hq, rfl, rfl, rfl, rfl⟩
  · rintro ⟨l, hl, hq, h1, h2, h3, h4⟩
    refine ⟨l, hl, t.value, hq, ?_⟩
    cases t
    simp_all

theorem formatData_ok {useCode : Bool} {wt : List WideRow} {ys selC selV : List String}
    {p : Panel} (h : formatData useCode wt ys selC selV = Except.ok p) :
    p = pivotPanel useCode (tidyRows useCode (df_work wt selC selV) ys) ∧
      tidyRows useCode (df_work wt selC selV) ys ≠ [] ∧ year_map ys ≠ [] := by
  simp only [formatData] at h
  split_ifs at h with h1 h2 h3 h4
  refine ⟨(Except.ok.inj h).symm, ?_, ?_⟩
  · exact fun hnil => h4 (by simp [hnil])
  · exact fun hnil => h3 (by simp [hnil])

theorem pivotPanel_vars (useCode : Bool) (L : List TidyRow) :
    (pivotPanel useCode L).vars =
      List.insertionSort cellLe ((L.filter (fun t => validRow useCode t)).map
        (fun t => t.var)).dedup := rfl

theorem pivotPanel_rows (useCode : Bool) (L : List TidyRow) :
    (pivotPanel useCode L).rows =
      (((L.filter (fun t => validRow useCode t)).map
          (fun t => keyOf useCode (country_id_map (unique_countries L)) t)).dedup).map
        (fun k => ⟨strCell k.country, k.country_id, k.code.map strCell, k.year,
          (pivotPanel useCode L).vars.map
            (fun v => panelCell useCode (country_id_map (unique_countries L)) L k v)⟩) := rfl

theorem isDigit_toNat {c : Char} (h : c.isDigit = true) : 48 ≤ c.toNat ∧ c.toNat ≤ 57 := by
  simp only [Char.isDigit, Bool.and_eq_true, decide_eq_true_eq] at h
  exact ⟨h.1, h.2⟩

theorem yearAt_range {l : List Char} {y : Int} (h : yearAt l = some y) :
    1900 ≤ y ∧ y ≤ 2099 := by
  match l with
  | [] => simp [yearAt] at h
  | [c1] => simp [yearAt] at h
  | [c1, c2] => simp [yearAt] at h
  | [c1, c2, c3] => simp [yearAt] at h
  | c1 :: c2 :: c3 :: c4 :: rest =>
    rw [yearAt] at h
    split_ifs at h with hc
    simp only [Bool.and_eq_true, Bool.or_eq_true, beq_iff_eq] at hc
    obtain ⟨⟨h12, hd3⟩, hd4⟩ := hc
    obtain ⟨hb3l, hb3u⟩ := isDigit_toNat hd3
    obtain ⟨hb4l, hb4u⟩ := isDigit_toNat hd4
    have hy : y = (((c1.toNat - 48) * 1000 + (c2.toNat - 48) * 100 +
        (c3.toNat - 48) * 10 + (c4.toNat - 48) : Nat) : Int) := (Option.some.inj h).symm
    rcases h12 with ⟨h1, h2⟩ | ⟨h1, h2⟩
    · have e1 : c1.toNat = 49 := by rw [h1]; rfl
      have e2 : c2.toNat = 57 := by rw [h2]; rfl
      rw [hy, e1, e2]
      constructor <;> omega
    · have e1 : c1.toNat = 50 := by rw [h1]; rfl
      have e2 : c2.toNat = 48 := by rw [h2]; rfl
      rw [hy, e1, e2]
      constructor <;> omega

theorem searchYear_range {l : List Char} {y : Int} (h : searchYear l = some y) :
    1900 ≤ y ∧ y ≤ 2099 := by
  induction l with
  | nil => simp [searchYear] at h
  | cons c rest ih =>
    rw [searchYear] at h
    cases hy : yearAt (c :: rest) with
    | some y0 =>
      rw [hy] at h
      exact (Option.some.inj h) ▸ yearAt_range hy
    | none =>
      rw [hy] at h
      exact ih h

/-! Claim theorems. -/

/-- C9: for every annual input series accepted by the Denton-type
disaggregator and every year of the input, the sum of the 12 produced
monthly values for that year equals the annual value within relative
tolerance 1e-6 (it matches exactly, by the aggregation constraint that
defines the disaggregator's output). -/
theorem c9_denton_consistency (low : List ℚ) (x : Nat → ℚ) (h : DentonOutput low x) :
    ∀ j < low.length, |annualSum x j - low.getD j 0| ≤ (1 / 1000000 : ℚ) * |low.getD j 0| := by
  intro j hj
  rw [h.2.1 j hj, sub_self, abs_zero]
  positivity

/-- Witness for C9: the constant monthly series 1 is a Denton output for the
annual series [12, 12] (it is feasible and has zero roughness), and its first
year aggregates back within tolerance. -/
theorem c9_witness :
    DentonOutput [12, 12] (fun _ => 1) ∧
      |annualSum (fun _ => 1) 0 - ([12, 12] : List ℚ).getD 0 0| ≤
        (1 / 1000000 : ℚ) * |([12, 12] : List ℚ).getD 0 0| := by
  have hfeas : dentonFeasible [12, 12] (fun _ => 1) := by
    intro j hj
    have hsum : annualSum (fun _ => (1 : ℚ)) j = 12 := by
      simp [annualSum]
    rw [hsum]
    have hj2 : j < 2 := by simpa using hj
    interval_cases j <;> rfl
  have hout : DentonOutput [12, 12] (fun _ => 1) := by
    refine ⟨by norm_num, hfeas, ?_⟩
    intro z hz
    have h0 : roughness (fun _ => (1 : ℚ)) (12 * ([12, 12] : List ℚ).length) = 0 := by
      simp [roughness]
    rw [h0, roughness]
    exact Finset.sum_nonneg (fun t _ => sq_nonneg _)
  exact ⟨hout, c9_denton_consistency [12, 12] (fun _ => 1) hout 0 (by norm_num)⟩

/-- C7: if zero year columns can be resolved, or zero rows survive value
cleaning, the formatting invocation ends in a distinct error branch and
stores no panel; conversely a successful invocation implies a nonempty
parsed-year map and a nonempty cleaned long table, so an all-missing input
can never be mistaken for an empty success. -/
theorem c7_reshape_empty (useCode : Bool) (wt : List WideRow) (ys selC selV : List String) :
    (year_map ys = [] → okPart (formatData useCode wt ys selC selV) = none) ∧
    (tidyRows useCode (df_work wt selC selV) ys = [] →
      okPart (formatData useCode wt ys selC selV) = none) ∧
    (∀ p, formatData useCode wt ys selC selV = Except.ok p →
      year_map ys ≠ [] ∧ tidyRows useCode (df_work wt selC selV) ys ≠ []) := by
  refine ⟨?_, ?_, ?_⟩
  · intro hy
    simp only [formatData]
    split_ifs with h1 h2 h3 h4
    · rfl
    · rfl
    · rfl
    · rfl
    · exact absurd (by simp [hy]) h3
  · intro ht
    simp only [formatData]
    split_ifs with h1 h2 h3 h4
    · rfl
    · rfl
    · rfl
    · rfl
    · exact absurd (by simp [ht]) h4
  · exact fun p h => ⟨(formatData_ok h).2.2, (formatData_ok h).2.1⟩

/-- Witness for C7 at a concrete input whose only value is the ".."
sentinel: the cleaned long table is empty and no panel is stored. -/
theorem c7_witness :
    tidyRows false (df_work wtC7x [] []) ["2000"] = [] ∧
      okPart (formatData false wtC7x ["2000"] [] []) = none :=
  ⟨by decide, (c7_reshape_empty false wtC7x ["2000"] [] []).2.1 (by decide)⟩

/-- C1 (sentinel handling): the value of every emitted long-format row comes
from a cell that was none of "..", "", " " — rows holding those cells are
dropped by value cleaning — and every melt row whose cell holds a parseable
number survives as a row carrying exactly that number. -/
theorem c1_sentinel_handling (useCode : Bool) (wt : List WideRow) (ys : List String) :
    (∀ t ∈ tidyRows useCode wt ys, ∃ l ∈ meltRows useCode wt ys,
        cleanValue l.value = some t.value ∧ l.value ≠ Cell.str ".." ∧
          l.value ≠ Cell.str "" ∧ l.value ≠ Cell.str " ") ∧
    (∀ l ∈ meltRows useCode wt ys, ∀ q : ℚ, cellNum l.value = some q →
        ∃ t ∈ tidyRows useCode wt ys,
          t.country = l.country ∧ t.var = l.var ∧ t.year = l.year ∧ t.value = q) := by
  constructor
  · intro t ht
    obtain ⟨l, hl, hcv, h1, h2, h3, h4⟩ := mem_tidyRows.mp ht
    refine ⟨l, hl, hcv, ?_, ?_, ?_⟩
    · intro heq; rw [heq] at hcv; simp [cleanValue] at hcv
    · intro heq; rw [heq] at hcv; simp [cleanValue] at hcv
    · intro heq
      rw [heq] at hcv
      rw [show cleanValue (Cell.str " ") = none from by decide] at hcv
      exact Option.noConfusion hcv
  · intro l hl q hq
    have hcv : cleanValue l.value = some q := by
      cases hv : l.value with
      | missing => rw [hv] at hq; exact Option.noConfusion hq
      | num r => rw [hv] at hq; exact hq
      | str s =>
        rw [hv] at hq
        simp only [cellNum] at hq
        simp only [cleanValue]
        split_ifs with hs
        · rcases hs with rfl | rfl
          · rw [show pyFloat? (String.data "..") = none from by decide] at hq
            exact Option.noConfusion hq
          · rw [show pyFloat? (String.data "") = none from by decide] at hq
            exact Option.noConfusion hq
        · exact hq
    exact ⟨⟨l.country, l.var, l.code, l.year, q⟩,
      mem_tidyRows.mpr ⟨l, hl, hcv, rfl, rfl, rfl, rfl⟩, rfl, rfl, rfl, rfl⟩

unseal Rat.mul Rat.inv Rat.add in
/-- Witness for C1: in a concrete run the string cell "1.5" survives as the
rational 3/2. -/
theorem c1_witness :
    lC1ex ∈ meltRows false wtC1ex ["2000", "2001"] ∧
      cellNum lC1ex.value = some (3 / 2 : ℚ) ∧
      ∃ t ∈ tidyRows false wtC1ex ["2000", "2001"],
        t.country = lC1ex.country ∧ t.var = lC1ex.var ∧ t.year = lC1ex.year ∧
          t.value = (3 / 2 : ℚ) :=
  ⟨by decide, by decide,
    (c1_sentinel_handling false wtC1ex ["2000", "2001"]).2 lC1ex (by decide) (3 / 2) (by decide)⟩

/-- C5 (amended, provable direction): every column satisfying the spec's
rule — a leading `(19|20)dd` token or a purely numeric first token — is
detected as a year column by the code; the code's test is strictly looser
(see the counterexample). -/
theorem c5_spec_rule_implies_detected (col : String) (h : specYearCol col = true) :
    isYearCol col = true := by
  simp only [specYearCol, Bool.or_eq_true, Bool.and_eq_true, Bool.not_eq_true'] at h
  rw [isYearCol]
  rcases h with h | ⟨hne, hdig⟩
  · rcases hs : pyStrip col.data with _ | ⟨c1, l1⟩
    · rw [hs] at h; simp [yearAtStart] at h
    · rcases l1 with _ | ⟨c2, l2⟩
      · rw [hs] at h; simp [yearAtStart] at h
      · rcases l2 with _ | ⟨c3, l3⟩
        · rw [hs] at h; simp [yearAtStart] at h
        · rcases l3 with _ | ⟨c4, l4⟩
          · rw [hs] at h; simp [yearAtStart] at h
          · rw [hs] at h
            simp only [yearAtStart, Bool.and_eq_true, Bool.or_eq_true, beq_iff_eq] at h
            obtain ⟨⟨h12, -⟩, -⟩ := h
            have hd : c1.isDigit = true := by
              rcases h12 with ⟨rfl, -⟩ | ⟨rfl, -⟩ <;> rfl
            simp [hd]
  · have hdw : (pyStrip col.data).dropWhile Char.isWhitespace = pyStrip col.data := by
      simp only [pyStrip]
      exact dropWhile_idem _ _
    rw [firstTok, hdw] at hne hdig
    rcases hs : pyStrip col.data with _ | ⟨c, rest⟩
    · rw [hs] at hne; simp at hne
    · rw [hs] at hne hdig
      rw [List.takeWhile_cons] at hne hdig
      by_cases hc : (!c.isWhitespace) = true
      · rw [if_pos hc] at hdig
        simp only [List.all_cons, Bool.and_eq_true] at hdig
        simp [hdig.1]
      · rw [if_neg hc] at hne
        simp at hne

/-- C5 counterexample: the column name "abc19" is detected by the code's
test (it contains the substring "19") although it neither starts with a
`(19|20)dd` token nor has a purely numeric first token, refuting the claimed
equivalence. -/
theorem c5_counterexample : isYearCol "abc19" = true ∧ specYearCol "abc19" = false := by
  decide

/-- Witness for C5 at the World Bank style header "2010 [YR2010]". -/
theorem c5_witness :
    specYearCol "2010 [YR2010]" = true ∧ isYearCol "2010 [YR2010]" = true :=
  ⟨by decide, c5_spec_rule_implies_detected "2010 [YR2010]" (by decide)⟩

/-- C6 (amended): every emitted row's year comes from a selected column that
parsed successfully (columns failing the parse emit nothing), and a parsed
year is either a regex match — hence within [1900, 2099] — or the Python
integer value of the column name's first whitespace token, which can lie
outside [1900, 2100] (see the counterexample). -/
theorem c6_year_extraction (useCode : Bool) (wt : List WideRow) (ys : List String) :
    (∀ t ∈ tidyRows useCode wt ys, ∃ col ∈ ys, parseYearCol col = some t.year) ∧
    (∀ col : String, ∀ y : Int, parseYearCol col = some y →
      (1900 ≤ y ∧ y ≤ 2099) ∨
        (searchYear (pyStrip col.data) = none ∧
          pyInt? (firstTok (pyStrip col.data)) = some y)) := by
  constructor
  · intro t ht
    obtain ⟨l, hl, -, -, -, -, hyear⟩ := mem_tidyRows.mp ht
    obtain ⟨pr, hpr, r, hr, rfl⟩ := mem_meltRows.mp hl
    simp only [year_map, List.mem_filterMap, Option.map_eq_some'] at hpr
    obtain ⟨⟨i, col⟩, hen, y0, hy0, hpair⟩ := hpr
    obtain ⟨hi, hcol⟩ := List.mem_enum hen
    refine ⟨col, ?_, ?_⟩
    · exact hcol ▸ List.getElem_mem hi
    · rw [hyear, ← hpair]
      exact hy0
  · intro col y h
    simp only [parseYearCol] at h
    cases hsy : searchYear (pyStrip col.data) with
    | some y1 =>
      rw [hsy] at h
      exact Or.inl ((Option.some.inj h) ▸ searchYear_range hsy)
    | none =>
      rw [hsy] at h
      refine Or.inr ⟨rfl, ?_⟩
      cases hft : firstTok (pyStrip col.data) with
      | nil => rw [hft] at h; exact Option.noConfusion h
      | cons c cs => rw [hft] at h; exact h

theorem unique_countries_sorted (L : List TidyRow) :
    List.Sorted strleP (unique_countries L) :=
  List.sorted_insertionSort strleP _

theorem unique_countries_nodup (L : List TidyRow) : (unique_countries L).Nodup :=
  ((List.perm_insertionSort strleP _).nodup_iff).mpr (List.nodup_dedup _)

theorem mem_unique_countries {L : List TidyRow} {s : String} :
    s ∈ unique_countries L ↔ ∃ t ∈ L, strCell t.country = s := by
  rw [unique_countries, List.mem_insertionSort, List.mem_dedup, List.mem_map]

theorem country_id_map_strict {cs : List String} (hs : List.Sorted strleP cs)
    {c1 c2 : String} (h1 : c1 ∈ cs) (h2 : c2 ∈ cs)
    (hle : strleP c1 c2) (hne : c1 ≠ c2) :
    country_id_map cs c1 < country_id_map cs c2 := by
  have hi1 : cs.indexOf c1 < cs.length := List.indexOf_lt_length.mpr h1
  have hi2 : cs.indexOf c2 < cs.length := List.indexOf_lt_length.mpr h2
  have hg1 : cs.get ⟨cs.indexOf c1, hi1⟩ = c1 := List.indexOf_get hi1
  have hg2 : cs.get ⟨cs.indexOf c2, hi2⟩ = c2 := List.indexOf_get hi2
  rcases Nat.lt_trichotomy (cs.indexOf c1) (cs.indexOf c2) with hlt | heq | hgt
  · simpa [country_id_map] using hlt
  · refine absurd ?_ hne
    rw [← hg1, ← hg2]
    exact congrArg cs.get (Fin.ext heq)
  · have hpw := (List.pairwise_iff_get.mp hs) ⟨cs.indexOf c2, hi2⟩ ⟨cs.indexOf c1, hi1⟩ hgt
    rw [hg1, hg2] at hpw
    exact absurd (strle_antisymm hle hpw) hne

theorem country_id_map_dense {cs : List String} (hn : cs.Nodup) (k : Nat) :
    (∃ c ∈ cs, country_id_map cs c = k) ↔ 1 ≤ k ∧ k ≤ cs.length := by
  constructor
  · rintro ⟨c, hc, rfl⟩
    have := List.indexOf_lt_length.mpr hc
    simp only [country_id_map]
    omega
  · rintro ⟨h1, h2⟩
    have hk : k - 1 < cs.length := by omega
    refine ⟨cs.get ⟨k - 1, hk⟩, List.get_mem _ _ _, ?_⟩
    have hlt : cs.indexOf (cs.get ⟨k - 1, hk⟩) < cs.length :=
      List.indexOf_lt_length.mpr (List.get_mem _ _ _)
    have hgi : cs.get ⟨cs.indexOf (cs.get ⟨k - 1, hk⟩), hlt⟩ = cs.get ⟨k - 1, hk⟩ :=
      List.indexOf_get hlt
    have heq : (⟨cs.indexOf (cs.get ⟨k - 1, hk⟩), hlt⟩ : Fin cs.length) = ⟨k - 1, hk⟩ :=
      (hn.get_inj_iff).mp hgi
    have hval : cs.indexOf (cs.get ⟨k - 1, hk⟩) = k - 1 := congrArg Fin.val heq
    simp only [country_id_map, hval]
    omega

theorem panel_row_src {useCode : Bool} {L : List TidyRow} {r : PanelRow}
    (hr : r ∈ (pivotPanel useCode L).rows) :
    ∃ t ∈ L, validRow useCode t = true ∧ r.country = strCell t.country ∧
      r.country_id = country_id_map (unique_countries L) (strCell t.country) ∧
      r.year = t.year ∧
      r.country_code = (if useCode then some (strCell t.code) else none) := by
  rw [pivotPanel_rows] at hr
  obtain ⟨k, hk, rfl⟩ := List.mem_map.mp hr
  obtain ⟨t, htv, rfl⟩ := List.mem_map.mp (List.mem_dedup.mp hk)
  obtain ⟨ht, hvalid⟩ := List.mem_filter.mp htv
  refine ⟨t, ht, hvalid, rfl, rfl, rfl, ?_⟩
  cases useCode <;> rfl

/-- C3: in every produced panel, country_id is the 1-based rank of the
country name (as a string) in lexicographic order over the distinct
countries present in the cleaned long table of the run; this rank map is
strictly increasing with lexicographic name order and its values are exactly
1..N over those N countries. -/
theorem c3_country_id (useCode : Bool) (wt : List WideRow) (ys selC selV : List String)
    (p : Panel) (h : formatData useCode wt ys selC selV = Except.ok p) :
    (∀ r ∈ p.rows,
        r.country ∈ unique_countries (tidyRows useCode (df_work wt selC selV) ys) ∧
        r.country_id =
          country_id_map (unique_countries (tidyRows useCode (df_work wt selC selV) ys))
            r.country) ∧
    (∀ s, s ∈ unique_countries (tidyRows useCode (df_work wt selC selV) ys) ↔
        ∃ t ∈ tidyRows useCode (df_work wt selC selV) ys, strCell t.country = s) ∧
    (∀ c1 ∈ unique_countries (tidyRows useCode (df_work wt selC selV) ys),
      ∀ c2 ∈ unique_countries (tidyRows useCode (df_work wt selC selV) ys),
        strleP c1 c2 → c1 ≠ c2 →
          country_id_map (unique_countries (tidyRows useCode (df_work wt selC selV) ys)) c1 <
            country_id_map (unique_countries (tidyRows useCode (df_work wt selC selV) ys)) c2) ∧
    (∀ k : Nat,
      (∃ c ∈ unique_countries (tidyRows useCode (df_work wt selC selV) ys),
          country_id_map (unique_countries (tidyRows useCode (df_work wt selC selV) ys)) c = k) ↔
        1 ≤ k ∧ k ≤ (unique_countries (tidyRows useCode (df_work wt selC selV) ys)).length) := by
  obtain ⟨hp, -, -⟩ := formatData_ok h
  subst hp
  refine ⟨?_, fun s => mem_unique_countries, ?_, ?_⟩
  · intro r hr
    obtain ⟨t, ht, -, hc, hid, -, -⟩ := panel_row_src hr
    constructor
    · rw [hc]
      exact mem_unique_countries.mpr ⟨t, ht, rfl⟩
    · rw [hc, hid]
  · intro c1 h1 c2 h2 hle hne
    exact country_id_map_strict (unique_countries_sorted _) h1 h2 hle hne
  · intro k
    exact country_id_map_dense (unique_countries_nodup _) k

/-- Witness for C3: countries arriving in the order b, a are ranked a = 1,
b = 2, and rank 2 is attained. -/
theorem c3_witness :
    formatData false wtC3ex ["2000"] [] [] = Except.ok pC3ex ∧
      (∃ c ∈ unique_countries (tidyRows false (df_work wtC3ex [] []) ["2000"]),
        country_id_map (unique_countries (tidyRows false (df_work wtC3ex [] []) ["2000"])) c
          = 2) :=
  ⟨by decide,
    ((c3_country_id false wtC3ex ["2000"] [] [] pC3ex (by decide)).2.2.2 2).mpr (by decide)⟩

/-- C8 (amended): the panel's leading columns are country, country_id,
[country_code,] year by construction of the pivot index, and there is
exactly one further column per distinct variable of the surviving rows —
but in ascending label order (pivot_table sorts its column labels), not in
first-encountered order (see the counterexample). -/
theorem c8_column_order (useCode : Bool) (wt : List WideRow) (ys selC selV : List String)
    (p : Panel) (h : formatData useCode wt ys selC selV = Except.ok p) :
    panelColumnNames useCode p =
      ["country", "country_id"] ++ (if useCode then ["country_code"] else []) ++ ["year"] ++
        p.vars.map (fun v => String.mk (pyStrip (strCell v).data)) ∧
    List.Sorted cellLe p.vars ∧ p.vars.Nodup ∧
    (∀ v, v ∈ p.vars ↔
      ∃ t ∈ tidyRows useCode (df_work wt selC selV) ys,
        validRow useCode t = true ∧ t.var = v) := by
  obtain ⟨hp, -, -⟩ := formatData_ok h
  subst hp
  refine ⟨rfl, ?_, ?_, ?_⟩
  · rw [pivotPanel_vars]
    exact List.sorted_insertionSort cellLe _
  · rw [pivotPanel_vars]
    exact ((List.perm_insertionSort cellLe _).nodup_iff).mpr (List.nodup_dedup _)
  · intro v
    rw [pivotPanel_vars, List.mem_insertionSort, List.mem_dedup, List.mem_map]
    constructor
    · rintro ⟨t, htv, rfl⟩
      obtain ⟨ht, hvalid⟩ := List.mem_filter.mp htv
      exact ⟨t, ht, hvalid, rfl⟩
    · rintro ⟨t, ht, hvalid, rfl⟩
      exact ⟨t, List.mem_filter.mpr ⟨ht, hvalid⟩, rfl⟩

/-- C8 counterexample: variables first encountered in the order "B", "Avar"
come out as panel columns "Avar", "B" — sorted, not first-encountered —
refuting the claimed column order. -/
theorem c8_counterexample :
    okPart (formatData false wtC8x ["2000"] [] []) = some pC8x ∧
      pC8x.vars = [Cell.str "Avar", Cell.str "B"] ∧
      (tidyRows false (df_work wtC8x [] []) ["2000"]).map (fun t => t.var) =
        [Cell.str "B", Cell.str "Avar"] := by
  decide

/-- Witness for C8. -/
theorem c8_witness :
    formatData false wtC8x ["2000"] [] [] = Except.ok pC8x ∧
      List.Sorted cellLe pC8x.vars :=
  ⟨by decide, (c8_column_order false wtC8x ["2000"] [] [] pC8x (by decide)).2.1⟩

/-- C10 (amended): the identifier cells of every produced panel row are
strings rendered from non-missing cells: a long row whose country or
(selected) country-code cell is missing is dropped by the pivot groupby, so
a missing country_code never appears in the panel — not even as the string
"nan" (see the counterexample). -/
theorem c10_identifier_strings (useCode : Bool) (wt : List WideRow)
    (ys selC selV : List String) (p : Panel)
    (h : formatData useCode wt ys selC selV = Except.ok p) :
    ∀ r ∈ p.rows, ∃ t ∈ tidyRows useCode (df_work wt selC selV) ys,
      t.country ≠ Cell.missing ∧ (useCode = true → t.code ≠ Cell.missing) ∧
      r.country = strCell t.country ∧
      r.country_code = (if useCode then some (strCell t.code) else none) := by
  obtain ⟨hp, -, -⟩ := formatData_ok h
  subst hp
  intro r hr
  obtain ⟨t, ht, hvalid, hc, -, -, hcode⟩ := panel_row_src hr
  simp only [validRow, Bool.and_eq_true, Bool.not_eq_true', decide_eq_false_iff_not,
    Bool.or_eq_true] at hvalid
  refine ⟨t, ht, hvalid.1.1, ?_, hc, hcode⟩
  intro hu
  rcases hvalid.2 with hfalse | hcode2
  · rw [hu] at hfalse
    exact absurd hfalse (by simp)
  · exact hcode2

/-- C6 counterexample: selecting the column named "5" (no regex match; its
first token parses as the integer 5) emits a panel row whose year is 5,
outside the claimed range [1900, 2100]. -/
theorem c6_counterexample :
    okPart (formatData false wtC6x ["5"] [] []) = some pC6x ∧
      pC6x.rows.map (fun r => r.year) = [5] ∧
      ¬(1900 ≤ (5 : Int) ∧ (5 : Int) ≤ 2100) := by
  decide

/-- Witness for C6 at the World Bank style header "2010 [YR2010]". -/
theorem c6_witness :
    parseYearCol "2010 [YR2010]" = some 2010 ∧
      ((1900 ≤ (2010 : Int) ∧ (2010 : Int) ≤ 2099) ∨
        (searchYear (pyStrip ("2010 [YR2010]").data) = none ∧
          pyInt? (firstTok (pyStrip ("2010 [YR2010]").data)) = some 2010)) :=
  ⟨by decide, (c6_year_extraction false [] []).2 "2010 [YR2010]" 2010 (by decide)⟩

/-- C10 counterexample: with a selected code column, the cleaned long table
has two rows, one of them with a missing country_code; the produced panel
has a single row whose code is "BB" — the missing-code row was dropped by
the pivot, not converted to the string "nan". -/
theorem c10_counterexample :
    okPart (formatData true wtC10x ["2000"] [] []) = some pC10x ∧
      (tidyRows true (df_work wtC10x [] []) ["2000"]).length = 2 ∧
      ((tidyRows true (df_work wtC10x [] []) ["2000"]).filter
        (fun t => decide (t.code = Cell.missing))).length = 1 ∧
      pC10x.rows.map (fun r => r.country_code) = [some "BB"] := by
  decide

/-- Witness for C10. -/
theorem c10_witness :
    formatData true wtC10x ["2000"] [] [] = Except.ok pC10x ∧
      ∃ t ∈ tidyRows true (df_work wtC10x [] []) ["2000"],
        t.country ≠ Cell.missing ∧ (true = true → t.code ≠ Cell.missing) ∧
        "B" = strCell t.country ∧
        (some "BB" : Option String) = (if true then some (strCell t.code) else none) := by
  refine ⟨by decide, ?_⟩
  exact c10_identifier_strings true wtC10x ["2000"] [] [] pC10x (by decide)
    ⟨"B", 2, some "BB", 2000, [some 2]⟩ (by decide)

/-- C2 (amended): fed any long rows, the pivot with no country-code column
yields at most one row per (country, year) — for string country cells, whose
id is a function of the name — and each panel cell holds the value of the
first surviving row of its (key, variable) group in long-row order.  With a
country-code column the pivot key also contains the code, and one country
carrying two codes in the same year yields two panel rows with equal
(country, year) (see the counterexample). -/
theorem c2_pivot_unique_first (L : List TidyRow)
    (hstr : ∀ t ∈ L, ∃ s, t.country = Cell.str s) :
    (∀ r1 ∈ (pivotPanel false L).rows, ∀ r2 ∈ (pivotPanel false L).rows,
        r1.country = r2.country → r1.year = r2.year → r1 = r2) ∧
    (∀ n (hn : n < (L.filter (fun t => validRow false t)).length),
      (∀ m (hm : m < (L.filter (fun t => validRow false t)).length), m < n →
        ¬(keyOf false (country_id_map (unique_countries L))
              ((L.filter (fun t => validRow false t)).get ⟨m, hm⟩) =
            keyOf false (country_id_map (unique_countries L))
              ((L.filter (fun t => validRow false t)).get ⟨n, hn⟩) ∧
          ((L.filter (fun t => validRow false t)).get ⟨m, hm⟩).var =
            ((L.filter (fun t => validRow false t)).get ⟨n, hn⟩).var)) →
      panelCell false (country_id_map (unique_countries L)) L
          (keyOf false (country_id_map (unique_countries L))
            ((L.filter (fun t => validRow false t)).get ⟨n, hn⟩))
          ((L.filter (fun t => validRow false t)).get ⟨n, hn⟩).var =
        some (((L.filter (fun t => validRow false t)).get ⟨n, hn⟩).value)) := by
  constructor
  · intro r1 hr1 r2 hr2 hc hy
    rw [pivotPanel_rows] at hr1 hr2
    obtain ⟨k1, hk1, rfl⟩ := List.mem_map.mp hr1
    obtain ⟨k2, hk2, rfl⟩ := List.mem_map.mp hr2
    obtain ⟨t1, ht1v, rfl⟩ := List.mem_map.mp (List.mem_dedup.mp hk1)
    obtain ⟨t2, ht2v, rfl⟩ := List.mem_map.mp (List.mem_dedup.mp hk2)
    obtain ⟨s1, hs1⟩ := hstr t1 (List.mem_of_mem_filter ht1v)
    obtain ⟨s2, hs2⟩ := hstr t2 (List.mem_of_mem_filter ht2v)
    have hc' : strCell t1.country = strCell t2.country := hc
    have hy' : t1.year = t2.year := hy
    have hcc : t1.country = t2.country := by
      rw [hs1, hs2] at hc' ⊢
      simp only [strCell] at hc'
      rw [hc']
    have hkey : keyOf false (country_id_map (unique_countries L)) t1 =
        keyOf false (country_id_map (unique_countries L)) t2 := by
      simp only [keyOf]
      rw [hcc, hy']
      simp
    rw [hkey]
  · intro n hn hfirst
    simp only [panelCell]
    rw [find?_eq_get _ _ n hn (by simp)
      (fun m hm hlt => by
        have hne := hfirst m hm hlt
        have hb : ¬((decide (keyOf false (country_id_map (unique_countries L))
              ((L.filter (fun t => validRow false t)).get ⟨m, hm⟩) =
            keyOf false (country_id_map (unique_countries L))
              ((L.filter (fun t => validRow false t)).get ⟨n, hn⟩)) &&
            decide (((L.filter (fun t => validRow false t)).get ⟨m, hm⟩).var =
              ((L.filter (fun t => validRow false t)).get ⟨n, hn⟩).var)) = true) := by
          simp only [Bool.and_eq_true, decide_eq_true_eq]
          exact hne
        exact Bool.of_not_eq_true hb)]
    rfl

/-- C2 counterexample: with a country-code column selected, the same country
"A" carrying codes "X1" and "X2" in year 2000 produces a panel with two rows
whose (country, year) pairs are both ("A", 2000), refuting the claimed
uniqueness of (country, year) keys. -/
theorem c2_counterexample :
    okPart (formatData true wtC2x ["2000"] [] []) = some pC2x ∧
      pC2x.rows.map (fun r => (r.country, r.year)) = [("A", 2000), ("A", 2000)] ∧
      pC2x.rows.length = 2 := by
  decide

/-- Witness for C2: two duplicate (country, year, variable) rows with values
1 then 2 resolve to the first value 1. -/
theorem c2_witness :
    formatData false wtC2w ["2000"] [] [] = Except.ok pC2w ∧
      panelCell false (country_id_map (unique_countries LC2w)) LC2w
        ⟨Cell.str "A", 1, none, 2000⟩ (Cell.str "v") = some 1 := by
  refine ⟨by decide, ?_⟩
  have hstr : ∀ t ∈ LC2w, ∃ s, t.country = Cell.str s := by
    intro t ht
    have hL : LC2w =
        [⟨Cell.str "A", Cell.str "v", Cell.missing, 2000, 1⟩,
         ⟨Cell.str "A", Cell.str "v", Cell.missing, 2000, 2⟩] := by decide
    rw [hL] at ht
    fin_cases ht <;> exact ⟨"A", rfl⟩
  exact (c2_pivot_unique_first LC2w hstr).2 0 (by decide)
    (fun m hm hlt => absurd hlt (Nat.not_lt_zero m))

/-- Wide-table origin of a surviving long row: its country, variable, code
and year cells come from a row of the melted table and a parsed column. -/
theorem tidy_src {useCode : Bool} {wt : List WideRow} {ys : List String} {t : TidyRow}
    (ht : t ∈ tidyRows useCode wt ys) :
    ∃ r ∈ wt, ∃ pr ∈ year_map ys, t.country = r.country ∧ t.var = r.var ∧
      t.code = (if useCode then r.code else Cell.missing) ∧ t.year = pr.2 := by
  obtain ⟨l, hl, -, hco, hva, hcd, hyr⟩ := mem_tidyRows.mp ht
  obtain ⟨pr, hpr, r, hrw, rfl⟩ := mem_meltRows.mp hl
  exact ⟨r, hrw, pr, hpr, hco, hva, hcd, hyr⟩

/-- C4 (amended): the produced panel has at most k2·y rows, where k2 counts
the distinct (country, country-code) pairs of the filtered table and y the
selected year columns — k2 equals the number k of distinct countries when no
code column is selected, but one country carrying two codes in the same year
contributes two rows (see the counterexample) — and at most m variable
columns: exactly one per distinct variable with at least one surviving
value, so a variable all of whose cells are sentinels contributes no column
(see the counterexample). -/
theorem c4_shape (useCode : Bool) (wt : List WideRow) (ys selC selV : List String)
    (p : Panel) (h : formatData useCode wt ys selC selV = Except.ok p) :
    p.rows.length ≤
      ((df_work wt selC selV).map
        (fun r => (r.country, if useCode then some r.code else none))).dedup.length *
        ys.length ∧
    p.vars.length ≤ ((df_work wt selC selV).map (fun r => r.var)).dedup.length ∧
    (∀ v, v ∈ p.vars ↔
      ∃ t ∈ tidyRows useCode (df_work wt selC selV) ys,
        validRow useCode t = true ∧ t.var = v) := by
  obtain ⟨hp, -, -⟩ := formatData_ok h
  subst hp
  refine ⟨?_, ?_, ?_⟩
  · rw [pivotPanel_rows, List.length_map, ← List.card_toFinset]
    have hinj : Set.InjOn (fun k : PKey => ((k.country, k.code), k.year))
        ((((tidyRows useCode (df_work wt selC selV) ys).filter
            (fun t => validRow useCode t)).map
          (fun t => keyOf useCode
            (country_id_map (unique_countries (tidyRows useCode (df_work wt selC selV) ys)))
            t)).toFinset : Finset PKey) := by
      intro k1 hk1 k2 hk2 hpair
      obtain ⟨t1, -, rfl⟩ := List.mem_map.mp (List.mem_toFinset.mp hk1)
      obtain ⟨t2, -, rfl⟩ := List.mem_map.mp (List.mem_toFinset.mp hk2)
      have hc : t1.country = t2.country := congrArg (fun x => x.1.1) hpair
      have hcode : (if useCode then some t1.code else none) =
          (if useCode then some t2.code else none) := congrArg (fun x => x.1.2) hpair
      have hy : t1.year = t2.year := congrArg (fun x => x.2) hpair
      simp only [keyOf]
      rw [hc, hy, hcode]
    have hmaps : ∀ k ∈ (((tidyRows useCode (df_work wt selC selV) ys).filter
            (fun t => validRow useCode t)).map
          (fun t => keyOf useCode
            (country_id_map (unique_countries (tidyRows useCode (df_work wt selC selV) ys)))
            t)).toFinset,
        (fun k : PKey => ((k.country, k.code), k.year)) k ∈
          (((df_work wt selC selV).map
              (fun r => (r.country, if useCode then some r.code else none))).toFinset ×ˢ
            ((year_map ys).map (fun pr => pr.2)).toFinset) := by
      intro k hk
      obtain ⟨t, htv, rfl⟩ := List.mem_map.mp (List.mem_toFinset.mp hk)
      obtain ⟨r, hrw, pr, hpr, hco, -, hcd, hyr⟩ := tidy_src (List.mem_of_mem_filter htv)
      rw [Finset.mem_product]
      constructor
      · refine List.mem_toFinset.mpr (List.mem_map.mpr ⟨r, hrw, ?_⟩)
        cases useCode <;> simp [keyOf, hco, hcd]
      · exact List.mem_toFinset.mpr (List.mem_map.mpr ⟨pr, hpr, hyr.symm⟩)
    calc (((tidyRows useCode (df_work wt selC selV) ys).filter
            (fun t => validRow useCode t)).map
          (fun t => keyOf useCode
            (country_id_map (unique_countries (tidyRows useCode (df_work wt selC selV) ys)))
            t)).toFinset.card
        ≤ (((df_work wt selC selV).map
              (fun r => (r.country, if useCode then some r.code else none))).toFinset ×ˢ
            ((year_map ys).map (fun pr => pr.2)).toFinset).card :=
          Finset.card_le_card_of_injOn _ hmaps hinj
      _ = ((df_work wt selC selV).map
              (fun r => (r.country, if useCode then some r.code else none))).toFinset.card *
            ((year_map ys).map (fun pr => pr.2)).toFinset.card := Finset.card_product _ _
      _ ≤ ((df_work wt selC selV).map
              (fun r => (r.country, if useCode then some r.code else none))).dedup.length *
            ys.length := by
          rw [List.card_toFinset]
          refine Nat.mul_le_mul_left _ ?_
          refine le_trans (List.toFinset_card_le _) ?_
          rw [List.length_map]
          exact le_trans (List.length_filterMap_le _ _) (le_of_eq List.enum_length)
  · rw [pivotPanel_vars,
      (List.perm_insertionSort cellLe
        (((tidyRows useCode (df_work wt selC selV) ys).filter
          (fun t => validRow useCode t)).map
          (fun t => t.var)).dedup).length_eq,
      ← List.card_toFinset, ← List.card_toFinset]
    apply Finset.card_le_card
    intro v hv
    obtain ⟨t, htv, rfl⟩ := List.mem_map.mp (List.mem_toFinset.mp hv)
    obtain ⟨r, hrw, pr, hpr, -, hva, -, -⟩ := tidy_src (List.mem_of_mem_filter htv)
    exact List.mem_toFinset.mpr (List.mem_map.mpr ⟨r, hrw, hva.symm⟩)
  · intro v
    rw [pivotPanel_vars, List.mem_insertionSort, List.mem_dedup, List.mem_map]
    constructor
    · rintro ⟨t, htv, rfl⟩
      obtain ⟨ht, hvalid⟩ := List.mem_filter.mp htv
      exact ⟨t, ht, hvalid, rfl⟩
    · rintro ⟨t, ht, hvalid, rfl⟩
      exact ⟨t, List.mem_filter.mpr ⟨ht, hvalid⟩, rfl⟩

/-- C4 counterexample: the claim fails in both directions.  A wide table
with m = 2 distinct variables, the second of which only carries the ".."
sentinel, produces a panel with a single variable column, refuting "exactly
m variable columns"; and with a code column, a table with k = 1 country and
y = 1 selected year but two country codes produces 2 > k·y panel rows,
refuting "at most k·y rows". -/
theorem c4_counterexample :
    (okPart (formatData false wtC4x ["2000"] [] []) = some pC4x ∧
      (wtC4x.map (fun r => r.var)).dedup.length = 2 ∧
      pC4x.vars.length = 1) ∧
    (okPart (formatData true wtC2x ["2000"] [] []) = some pC2x ∧
      (wtC2x.map (fun r => r.country)).dedup.length = 1 ∧
      pC2x.rows.length = 2) := by
  decide

/-- Witness for C4. -/
theorem c4_witness :
    formatData false wtC4x ["2000"] [] [] = Except.ok pC4x ∧
      pC4x.rows.length ≤
        ((df_work wtC4x [] []).map
          (fun r => (r.country, if (false : Bool) then some r.code else none))).dedup.length *
          ["2000"].length :=
  ⟨by decide, (c4_shape false wtC4x ["2000"] [] [] pC4x (by decide)).1⟩
